import Mathlib

/-!
Verification of the `azure_monitor` telegraf input plugin
(`plugins/inputs/azure_monitor/azure_monitor.go`).

The development shallowly embeds the plugin's code:

* the response data model (`AzureMonitorResponse` and its components) is
  translated structure-by-structure from the Go type declarations;
* `parseResponse` is translated from the Go function of the same name; the
  HTTP response it consumes is modelled as a status code plus the result of
  reading the body (which may fail, as `io.ReadAll` may);
* the JSON decoding step performed by Go's `encoding/json` is modelled from
  the spec's schema description (a JSON value type, a one-value parser and a
  case-insensitive, zero-value-defaulting struct decoder);
* the timestamp-bucketizing loop of `Gather` is translated into folds over
  association lists (Go's `map` is modelled as an insertion-ordered
  association list; map iteration-order nondeterminism is modelled
  explicitly where a claim depends on it);
* RFC3339 timestamp parsing (Go's `time.Parse(time.RFC3339, ·)`) is
  modelled from the spec;
* `Init` is translated from the Go method, with credential acquisition
  modelled as an externally supplied result.

Go `float64` metric values are modelled as rationals: the plugin never
performs arithmetic on them, it only copies them from the decoded payload
into field sets, so any value carrier with decidable equality is faithful.
-/

/-- JSON values, as decoded by the response parser.  Numbers are carried as
rationals (exact decimals); object members keep their document order, which
is the order Go's decoder processes them in. -/
inductive Json where
  | null
  | bool (b : Bool)
  | num (v : ℚ)
  | str (s : String)
  | arr (items : List Json)
  | obj (members : List (String × Json))

/-- The `\x7b` character (opening curly brace). -/
def lbrace : Char := Char.ofNat 123

/-- The `\x7d` character (closing curly brace). -/
def rbrace : Char := Char.ofNat 125

/-- Skip JSON insignificant whitespace. -/
def skipWs : List Char → List Char
  | [] => []
  | c :: cs =>
    if c = ' ' ∨ c = '\t' ∨ c = '\n' ∨ c = '\r' then skipWs cs else c :: cs

/-- Parse the body of a JSON string literal (the opening quote already
consumed), accumulating characters in reverse. -/
def pStrAux : List Char → List Char → Option (String × List Char)
  | _, [] => none
  | acc, '"' :: cs => some (String.mk acc.reverse, cs)
  | acc, '\\' :: e :: cs =>
    if e = '"' then pStrAux ('"' :: acc) cs
    else if e = '\\' then pStrAux ('\\' :: acc) cs
    else if e = '/' then pStrAux ('/' :: acc) cs
    else if e = 'n' then pStrAux ('\n' :: acc) cs
    else if e = 't' then pStrAux ('\t' :: acc) cs
    else if e = 'r' then pStrAux ('\r' :: acc) cs
    else if e = 'b' then pStrAux (Char.ofNat 8 :: acc) cs
    else if e = 'f' then pStrAux (Char.ofNat 12 :: acc) cs
    else none
  | _, ['\\'] => none
  | acc, c :: cs => pStrAux (c :: acc) cs

/-- Numeric value of a digit character. -/
def digitVal (c : Char) : Nat := c.toNat - 48

/-- Consume a run of digits, returning the accumulated value, the number of
digits consumed and the rest of the input. -/
def pDigits : Nat → Nat → List Char → Nat × Nat × List Char
  | acc, n, [] => (acc, n, [])
  | acc, n, c :: cs =>
    if c.isDigit then pDigits (acc * 10 + digitVal c) (n + 1) cs
    else (acc, n, c :: cs)

/-- Parse a JSON number token into a rational. -/
def pNumber (cs : List Char) : Option (ℚ × List Char) :=
  let (neg, cs₁) :=
    match cs with
    | '-' :: rest => (true, rest)
    | _ => (false, cs)
  let (ip, ic, cs₂) := pDigits 0 0 cs₁
  if ic = 0 then none
  else
    let (mant, fc, cs₃) :=
      match cs₂ with
      | '.' :: rest =>
        let (fp, fc, rest') := pDigits ip 0 rest
        (fp, fc, rest')
      | _ => (ip, 0, cs₂)
    if cs₃ ≠ cs₂ ∧ fc = 0 then none
    else
      let (eneg, ev, ec, cs₄) :=
        match cs₃ with
        | 'e' :: '-' :: rest =>
          let (v, c, rest') := pDigits 0 0 rest
          (true, v, c, rest')
        | 'e' :: '+' :: rest =>
          let (v, c, rest') := pDigits 0 0 rest
          (false, v, c, rest')
        | 'e' :: rest =>
          let (v, c, rest') := pDigits 0 0 rest
          (false, v, c, rest')
        | 'E' :: '-' :: rest =>
          let (v, c, rest') := pDigits 0 0 rest
          (true, v, c, rest')
        | 'E' :: '+' :: rest =>
          let (v, c, rest') := pDigits 0 0 rest
          (false, v, c, rest')
        | 'E' :: rest =>
          let (v, c, rest') := pDigits 0 0 rest
          (false, v, c, rest')
        | _ => (false, 0, 1, cs₃)
      if cs₄ ≠ cs₃ ∧ ec = 0 then none
      else
        let sm : Int := if neg then -(mant : Int) else (mant : Int)
        let q : ℚ :=
          if eneg ∨ ev < fc then mkRat sm (10 ^ (fc + (if eneg then ev else 0) - (if eneg then 0 else ev)))
          else (sm * (10 : Int) ^ (ev - fc) : Int)
        some (q, cs₄)

mutual

/-- Parse one JSON value. -/
def pValue : Nat → List Char → Option (Json × List Char)
  | 0, _ => none
  | fuel + 1, cs =>
    match skipWs cs with
    | [] => none
    | 'n' :: 'u' :: 'l' :: 'l' :: r => some (.null, r)
    | 't' :: 'r' :: 'u' :: 'e' :: r => some (.bool true, r)
    | 'f' :: 'a' :: 'l' :: 's' :: 'e' :: r => some (.bool false, r)
    | '"' :: r => (pStrAux [] r).map (fun p => (Json.str p.1, p.2))
    | c :: r =>
      if c = lbrace then pObj fuel r
      else if c = '[' then pArr fuel r
      else if c = '-' ∨ c.isDigit then
        (pNumber (c :: r)).map (fun p => (Json.num p.1, p.2))
      else none

/-- Parse the items of a JSON array, positioned right after `[` or `,`. -/
def pArrItems : Nat → List Char → Option (List Json × List Char)
  | 0, _ => none
  | fuel + 1, cs => do
    let (v, r) ← pValue fuel cs
    match skipWs r with
    | c :: r' =>
      if c = ',' then
        let (vs, r'') ← pArrItems fuel r'
        some (v :: vs, r'')
      else if c = ']' then some ([v], r')
      else none
    | [] => none

/-- Parse a JSON array, positioned right after the opening `[`. -/
def pArr : Nat → List Char → Option (Json × List Char)
  | 0, _ => none
  | fuel + 1, cs =>
    match skipWs cs with
    | ']' :: r => some (.arr [], r)
    | cs' => (pArrItems fuel cs').map (fun p => (Json.arr p.1, p.2))

/-- Parse the members of a JSON object, positioned right after `\x7b` or `,`. -/
def pObjItems : Nat → List Char → Option (List (String × Json) × List Char)
  | 0, _ => none
  | fuel + 1, cs =>
    match skipWs cs with
    | '"' :: r => do
      let (k, r₁) ← pStrAux [] r
      match skipWs r₁ with
      | ':' :: r₂ => do
        let (v, r₃) ← pValue fuel r₂
        match skipWs r₃ with
        | c :: r₄ =>
          if c = ',' then
            let (ms, r₅) ← pObjItems fuel r₄
            some ((k, v) :: ms, r₅)
          else if c = rbrace then some ([(k, v)], r₄)
          else none
        | [] => none
      | _ => none
    | _ => none

/-- Parse a JSON object, positioned right after the opening `\x7b`. -/
def pObj : Nat → List Char → Option (Json × List Char)
  | 0, _ => none
  | fuel + 1, cs =>
    match skipWs cs with
    | c :: r =>
      if c = rbrace then some (.obj [], r)
      else (pObjItems fuel (c :: r)).map (fun p => (Json.obj p.1, p.2))
    | [] => none

end

/-- Parse a single JSON value from a string.  Like Go's
`json.Decoder.Decode`, this reads one value and ignores anything after it;
an input with no leading JSON value fails. -/
def jsonParse (s : String) : Option Json :=
  (pValue (3 * s.length + 3) s.toList).map Prod.fst

/-! ## The response data model (translated from the Go type declarations) -/

/-- Go struct `AzureMonitorResponseValueName`. -/
structure AzureMonitorResponseValueName where
  LocalizedValue : String
  Value : String
deriving DecidableEq

/-- Go struct `AzureMonitorResponseTimeSeriesDatum`.  `Average` is a Go
`float64`, modelled as a rational (the plugin only copies it, never
computes with it). -/
structure AzureMonitorResponseTimeSeriesDatum where
  Average : ℚ
  TimeStamp : String
deriving DecidableEq

/-- Go struct `AzureMonitorResponseTimeSeries`.  `MetadataValues` is a Go
`[]map[string]interface\x7b\x7d`, modelled as a list of raw JSON object
member lists. -/
structure AzureMonitorResponseTimeSeries where
  Data : List AzureMonitorResponseTimeSeriesDatum
  MetadataValues : List (List (String × Json))

/-- Go struct `AzureMonitorResponseValue` (the Go field `Type` is spelled
`Type'` here because `Type` is reserved in Lean). -/
structure AzureMonitorResponseValue where
  DisplayDescription : String
  ErrorCode : String
  Id : String
  Name : AzureMonitorResponseValueName
  TimeSeries : List AzureMonitorResponseTimeSeries
  Type' : String
  Unit : String

/-- Go struct `AzureMonitorResponse`. -/
structure AzureMonitorResponse where
  Cost : ℚ
  Interval : String
  Namespace : String
  ResourceRegion : String
  Timespan : String
  Value : List AzureMonitorResponseValue

/-- The Go zero value of `AzureMonitorResponseValueName`. -/
def zeroValueName : AzureMonitorResponseValueName := ⟨"", ""⟩

/-- The Go zero value of `AzureMonitorResponseTimeSeriesDatum`. -/
def zeroDatum : AzureMonitorResponseTimeSeriesDatum := ⟨0, ""⟩

/-- The Go zero value of `AzureMonitorResponseTimeSeries`. -/
def zeroTimeSeries : AzureMonitorResponseTimeSeries := ⟨[], []⟩

/-- The Go zero value of `AzureMonitorResponseValue`. -/
def zeroValue : AzureMonitorResponseValue := ⟨"", "", "", zeroValueName, [], "", ""⟩

/-- The Go zero value of `AzureMonitorResponse` (what `var response
AzureMonitorResponse` declares before decoding). -/
def zeroResponse : AzureMonitorResponse := ⟨0, "", "", "", "", []⟩

/-! ## The JSON-to-struct decoder

Modelled from the spec: the decoding into the `MonitorResponse` schema is
performed in the Go source by `encoding/json`, which is not part of this
repository.  Following the spec (§4.1, §6): field-name matching is
case-insensitive, absent fields are tolerated and keep the zero value, a
value of the wrong JSON type for a field is a hard decode failure, and
`null` leaves a field unchanged.  Object members are processed in document
order, so a later duplicate key overwrites an earlier one. -/

/-- Case-insensitive field-name comparison (Go's `strings.EqualFold`,
restricted to the simple-case fold). -/
def eqFold (a b : String) : Bool :=
  a.toList.map Char.toLower = b.toList.map Char.toLower

/-- Decode a JSON value into a string-typed struct field. -/
def decStringField (j : Json) (cur : String) : Except String String :=
  match j with
  | .str s => .ok s
  | .null => .ok cur
  | _ => .error "json: cannot unmarshal value into field of type string"

/-- Decode a JSON value into a float64-typed struct field. -/
def decNumberField (j : Json) (cur : ℚ) : Except String ℚ :=
  match j with
  | .num v => .ok v
  | .null => .ok cur
  | _ => .error "json: cannot unmarshal value into field of type float64"

/-- Decode a JSON value into a slice-typed struct field: an array replaces
the slice with its decoded elements, `null` leaves it unchanged. -/
def decArrayField (j : Json) (f : Json → Except String α) (cur : List α) :
    Except String (List α) :=
  match j with
  | .arr items => items.mapM f
  | .null => .ok cur
  | _ => .error "json: cannot unmarshal value into field of slice type"

/-- Decode a JSON value into a `map[string]interface\x7b\x7d`. -/
def decRawMap (j : Json) : Except String (List (String × Json)) :=
  match j with
  | .obj members => .ok members
  | .null => .ok []
  | _ => .error "json: cannot unmarshal value into map"

/-- Decode into `AzureMonitorResponseValueName`, starting from `cur`. -/
def decValueName (j : Json) (cur : AzureMonitorResponseValueName) :
    Except String AzureMonitorResponseValueName :=
  match j with
  | .null => .ok cur
  | .obj members =>
    members.foldlM (fun acc kv =>
      if eqFold kv.1 "LocalizedValue" then
        (decStringField kv.2 acc.LocalizedValue).map fun s => { acc with LocalizedValue := s }
      else if eqFold kv.1 "Value" then
        (decStringField kv.2 acc.Value).map fun s => { acc with Value := s }
      else .ok acc) cur
  | _ => .error "json: cannot unmarshal value into struct"

/-- Decode into `AzureMonitorResponseTimeSeriesDatum` (zero-initialized). -/
def decDatum (j : Json) : Except String AzureMonitorResponseTimeSeriesDatum :=
  match j with
  | .null => .ok zeroDatum
  | .obj members =>
    members.foldlM (fun acc kv =>
      if eqFold kv.1 "Average" then
        (decNumberField kv.2 acc.Average).map fun v => { acc with Average := v }
      else if eqFold kv.1 "TimeStamp" then
        (decStringField kv.2 acc.TimeStamp).map fun s => { acc with TimeStamp := s }
      else .ok acc) zeroDatum
  | _ => .error "json: cannot unmarshal value into struct"

/-- Decode into `AzureMonitorResponseTimeSeries` (zero-initialized). -/
def decTimeSeries (j : Json) : Except String AzureMonitorResponseTimeSeries :=
  match j with
  | .null => .ok zeroTimeSeries
  | .obj members =>
    members.foldlM (fun acc kv =>
      if eqFold kv.1 "Data" then
        (decArrayField kv.2 decDatum acc.Data).map fun d => { acc with Data := d }
      else if eqFold kv.1 "MetadataValues" then
        (decArrayField kv.2 decRawMap acc.MetadataValues).map fun m =>
          { acc with MetadataValues := m }
      else .ok acc) zeroTimeSeries
  | _ => .error "json: cannot unmarshal value into struct"

/-- Decode into `AzureMonitorResponseValue` (zero-initialized). -/
def decValue (j : Json) : Except String AzureMonitorResponseValue :=
  match j with
  | .null => .ok zeroValue
  | .obj members =>
    members.foldlM (fun acc kv =>
      if eqFold kv.1 "DisplayDescription" then
        (decStringField kv.2 acc.DisplayDescription).map fun s =>
          { acc with DisplayDescription := s }
      else if eqFold kv.1 "ErrorCode" then
        (decStringField kv.2 acc.ErrorCode).map fun s => { acc with ErrorCode := s }
      else if eqFold kv.1 "Id" then
        (decStringField kv.2 acc.Id).map fun s => { acc with Id := s }
      else if eqFold kv.1 "Name" then
        (decValueName kv.2 acc.Name).map fun n => { acc with Name := n }
      else if eqFold kv.1 "TimeSeries" then
        (decArrayField kv.2 decTimeSeries acc.TimeSeries).map fun t =>
          { acc with TimeSeries := t }
      else if eqFold kv.1 "Type" then
        (decStringField kv.2 acc.Type').map fun s => { acc with Type' := s }
      else if eqFold kv.1 "Unit" then
        (decStringField kv.2 acc.Unit).map fun s => { acc with Unit := s }
      else .ok acc) zeroValue
  | _ => .error "json: cannot unmarshal value into struct"

/-- Decode into `AzureMonitorResponse` (zero-initialized). -/
def decResponse (j : Json) : Except String AzureMonitorResponse :=
  match j with
  | .null => .ok zeroResponse
  | .obj members =>
    members.foldlM (fun acc kv =>
      if eqFold kv.1 "Cost" then
        (decNumberField kv.2 acc.Cost).map fun v => { acc with Cost := v }
      else if eqFold kv.1 "Interval" then
        (decStringField kv.2 acc.Interval).map fun s => { acc with Interval := s }
      else if eqFold kv.1 "Namespace" then
        (decStringField kv.2 acc.Namespace).map fun s => { acc with Namespace := s }
      else if eqFold kv.1 "ResourceRegion" then
        (decStringField kv.2 acc.ResourceRegion).map fun s => { acc with ResourceRegion := s }
      else if eqFold kv.1 "Timespan" then
        (decStringField kv.2 acc.Timespan).map fun s => { acc with Timespan := s }
      else if eqFold kv.1 "Value" then
        (decArrayField kv.2 decValue acc.Value).map fun v => { acc with Value := v }
      else .ok acc) zeroResponse
  | _ => .error "json: cannot unmarshal value into struct"

/-- Decode a response body string: parse one JSON value, then decode it
into the `AzureMonitorResponse` schema. -/
def decodeMonitorResponse (body : String) : Except String AzureMonitorResponse :=
  match jsonParse body with
  | none => .error "invalid JSON"
  | some j => decResponse j

/-! ## parseResponse (translated from the Go function) -/

/-- The classified errors the plugin can produce.  In Go all of these are
values of the `error` interface; the constructors record which source
produced them: `config` from `Init`'s resource-id check, `credential` from
the identity library, `transport` from the HTTP client or `io.ReadAll`,
`provider` from the non-2xx branch of `parseResponse` (an
`AzureMonitorError`), `decode` from the JSON decoder. -/
inductive AzError where
  | config (msg : String)
  | credential (msg : String)
  | transport (msg : String)
  | provider (status : Int) (body : String)
  | decode (msg : String)
deriving DecidableEq

/-- The `Error()` string of each error value; for `provider` this is the
`fmt.Sprintf("Azure monitor request returned error. Status %v:\n%v", ...)`
message of `AzureMonitorError`. -/
def AzError.message : AzError → String
  | .config msg => msg
  | .credential msg => msg
  | .transport msg => msg
  | .provider status body =>
    "Azure monitor request returned error. Status " ++ toString status ++ ":\n" ++ body
  | .decode msg => msg

/-- A completed HTTP response, as `parseResponse` consumes it: the status
code and the outcome of reading the body to the end (`io.ReadAll`, which
may fail). -/
structure HttpResponse where
  StatusCode : Int
  BodyRead : Except String String

/-- `parseResponse`, parameterized by the JSON decoding function so that
the status-check-before-decode structure of the Go code is explicit. -/
def parseResponseWith (dec : String → Except String AzureMonitorResponse)
    (resp : HttpResponse) : Except AzError AzureMonitorResponse :=
  match resp.BodyRead with
  | .error e => .error (.transport e)
  | .ok body =>
    if resp.StatusCode < 200 ∨ 299 < resp.StatusCode then
      .error (.provider resp.StatusCode body)
    else
      match dec body with
      | .error e => .error (.decode e)
      | .ok response => .ok response

/-- Go `parseResponse`: read the body, reject non-2xx statuses, then decode
the body as JSON into an `AzureMonitorResponse`. -/
def parseResponse (resp : HttpResponse) : Except AzError AzureMonitorResponse :=
  parseResponseWith decodeMonitorResponse resp

/-! ## RFC3339 timestamp parsing

Modelled from the spec: `Gather` calls `time.Parse(time.RFC3339, ts)` from
Go's `time` package, which is not part of this repository.  Following the
spec (§4.2 step 3), a timestamp is accepted exactly when it has the RFC3339
shape `YYYY-MM-DDThh:mm:ss`, optionally followed by a fraction, then `Z` or
a numeric `±hh:mm` offset, with all components in range. -/

/-- The wall-clock components carried by a successfully parsed RFC3339
timestamp (the model of the Go `time.Time` result). -/
structure ParsedTime where
  year : Nat
  month : Nat
  day : Nat
  hour : Nat
  minute : Nat
  second : Nat
  nanos : Nat
  offsetMinutes : Int
deriving DecidableEq

/-- Numeric value of a digit character, failing on non-digits. -/
def dig (c : Char) : Option Nat :=
  if c.isDigit then some (c.toNat - 48) else none

/-- Value of a two-digit group. -/
def dig2 (a b : Char) : Option Nat := do
  let x ← dig a
  let y ← dig b
  pure (10 * x + y)

/-- Whether `y` is a leap year (proleptic Gregorian). -/
def isLeapYear (y : Nat) : Bool :=
  y % 4 = 0 ∧ (y % 100 ≠ 0 ∨ y % 400 = 0)

/-- Number of days in month `m` of year `y`. -/
def daysInMonth (y m : Nat) : Nat :=
  if m = 2 then (if isLeapYear y then 29 else 28)
  else if m = 4 ∨ m = 6 ∨ m = 9 ∨ m = 11 then 30
  else 31

/-- Parse an optional fractional-seconds group, returning nanoseconds and
the rest of the input.  At least one digit must follow the dot. -/
def pFraction : List Char → Option (Nat × List Char)
  | '.' :: rest =>
    let (v, n, rest') := pDigits 0 0 rest
    if n = 0 then none
    else if n ≤ 9 then some (v * 10 ^ (9 - n), rest')
    else some (v / 10 ^ (n - 9), rest')
  | cs => some (0, cs)

/-- Parse the timezone suffix: `Z` or `±hh:mm`, which must end the
string.  Returns the offset east of UTC in minutes. -/
def pOffset : List Char → Option Int
  | ['Z'] => some 0
  | [sgn, h1, h2, ':', m1, m2] => do
    let hh ← dig2 h1 h2
    let mm ← dig2 m1 m2
    if hh ≤ 23 ∧ mm ≤ 59 then
      if sgn = '+' then pure (60 * hh + mm)
      else if sgn = '-' then pure (-(60 * (hh : Int) + mm))
      else none
    else none
  | _ => none

/-- Parse an RFC3339 timestamp string, the model of
`time.Parse(time.RFC3339, s)`: `none` is the error outcome. -/
def rfc3339Parse (s : String) : Option ParsedTime :=
  match s.toList with
  | y1 :: y2 :: y3 :: y4 :: '-' :: mo1 :: mo2 :: '-' :: d1 :: d2 :: 'T' ::
      h1 :: h2 :: ':' :: mi1 :: mi2 :: ':' :: s1 :: s2 :: rest => do
    let ya ← dig2 y1 y2
    let yb ← dig2 y3 y4
    let mo ← dig2 mo1 mo2
    let d ← dig2 d1 d2
    let h ← dig2 h1 h2
    let mi ← dig2 mi1 mi2
    let se ← dig2 s1 s2
    let (ns, rest') ← pFraction rest
    let off ← pOffset rest'
    let y := 100 * ya + yb
    if 1 ≤ mo ∧ mo ≤ 12 ∧ 1 ≤ d ∧ d ≤ daysInMonth y mo ∧
        h ≤ 23 ∧ mi ≤ 59 ∧ se ≤ 59 then
      pure ⟨y, mo, d, h, mi, se, ns, off⟩
    else none
  | _ => none

/-! ## The timestamp bucketizer and Gather (translated from the Go `Gather`
method) -/

/-- A field mapping: metric name to value.  Go's
`map[string]interface\x7b\x7d` holding `float64` values is modelled as an
insertion-ordered association list with unique keys. -/
abbrev Fields := List (String × ℚ)

/-- The timestamp buckets: Go's `map[string]map[string]interface\x7b\x7d`,
keyed by timestamp string. -/
abbrev Buckets := List (String × Fields)

/-- Go map assignment `fields[name] = avg`: overwrite the entry in place if
the key exists, otherwise add it. -/
def fieldsInsert : Fields → String → ℚ → Fields
  | [], name, avg => [(name, avg)]
  | (k, v) :: rest, name, avg =>
    if k = name then (name, avg) :: rest
    else (k, v) :: fieldsInsert rest name avg

/-- The body of the innermost `Gather` loop: ensure the bucket for
`datum.TimeStamp` exists, then assign `slot[name] = datum.Average`. -/
def bucketsInsert : Buckets → String → String → ℚ → Buckets
  | [], ts, name, avg => [(ts, fieldsInsert [] name avg)]
  | (t, fs) :: rest, ts, name, avg =>
    if t = ts then (ts, fieldsInsert fs name avg) :: rest
    else (t, fs) :: bucketsInsert rest ts name avg

/-- Association-list lookup for the buckets map. -/
def lookupTs : Buckets → String → Option Fields
  | [], _ => none
  | (t, fs) :: rest, ts => if t = ts then some fs else lookupTs rest ts

/-- Association-list lookup for a field mapping. -/
def lookupF : Fields → String → Option ℚ
  | [], _ => none
  | (k, v) :: rest, name => if k = name then some v else lookupF rest name

/-- The grouping pass of `Gather`: the three nested `for` loops that bucket
every datum of the response by its timestamp string. -/
def bucketize (r : AzureMonitorResponse) : Buckets :=
  r.Value.foldl (fun m value =>
    value.TimeSeries.foldl (fun m ts =>
      ts.Data.foldl (fun m datum =>
        bucketsInsert m datum.TimeStamp value.Name.Value datum.Average) m) m) []

/-- One call to `acc.AddFields("azure_monitor", fields, tags, timestamp)`. -/
structure Emission where
  measurement : String
  fields : Fields
  tags : List (String × String)
  timestamp : ParsedTime
deriving DecidableEq

/-- The emission loop of `Gather`: for each bucket, parse its timestamp
key as RFC3339, silently skipping buckets whose key does not parse. -/
def emitBuckets (resourceId : String) (m : Buckets) : List Emission :=
  m.filterMap fun p =>
    (rfc3339Parse p.1).map fun t =>
      ⟨"azure_monitor", p.2, [("resource_id", resourceId)], t⟩

/-- An opaque credential obtained from the identity library. -/
structure Authorizer where
  token : String
deriving DecidableEq

/-- The plugin struct (`Log` is omitted; it is never used). -/
structure AzureMonitor where
  ResourceId : String
  authorizer : Option Authorizer

/-- The URL `makeRequest` builds. -/
def makeRequestUrl (a : AzureMonitor) : String :=
  "https://management.azure.com/" ++ a.ResourceId ++
    "/providers/microsoft.insights/metrics?api-version=2018-01-01"

/-- Go `Gather`, with the network interaction made explicit: `request` is
the outcome of `makeRequest` (either an error or a completed response).
The result is the list of `AddFields` calls made on the accumulator, in
order, together with the error `Gather` returns (`none` for success). -/
def gather (a : AzureMonitor) (request : Except String HttpResponse) :
    List Emission × Option AzError :=
  match request with
  | .error e => ([], some (.transport e))
  | .ok resp =>
    match parseResponse resp with
    | .error e => ([], some e)
    | .ok monitorResponse =>
      (emitBuckets a.ResourceId (bucketize monitorResponse), none)

/-- Go `Init`, with credential acquisition
(`auth.NewAuthorizerFromEnvironment()`) modelled as an externally supplied
outcome `envAuth`. -/
def AzureMonitor.Init (a : AzureMonitor) (envAuth : Except String Authorizer) :
    Except AzError AzureMonitor :=
  if a.ResourceId = "" then .error (.config "resource_id must be configured")
  else
    match envAuth with
    | .error e => .error (.credential e)
    | .ok authorizer => .ok { a with authorizer := some authorizer }

/-! ## Specification-side helpers

These restate pieces of the traversal in a form the theorems quantify
over: `allData` is the flat list of (metric name, datum) pairs exactly in
the order the three nested loops of `Gather` visit them. -/

/-- A datum together with the machine-readable name of the metric that
reported it. -/
abbrev NamedDatum := String × AzureMonitorResponseTimeSeriesDatum

/-- All (metric name, datum) pairs of a response, in traversal order. -/
def allData (r : AzureMonitorResponse) : List NamedDatum :=
  r.Value.flatMap fun v =>
    v.TimeSeries.flatMap fun s => s.Data.map fun d => (v.Name.Value, d)

/-- Insert a list of named data into the buckets, in order. -/
def insertAll (m : Buckets) (ps : List NamedDatum) : Buckets :=
  ps.foldl (fun m p => bucketsInsert m p.2.TimeStamp p.1 p.2.Average) m

/-- Emission of the buckets along an explicitly given key order. Go's map
iteration order is unspecified; any permutation of the keys models one run
of the emission loop. -/
def emitAlong (resourceId : String) (m : Buckets) (order : List String) :
    List Emission :=
  order.filterMap fun ts =>
    (lookupTs m ts).bind fun fs =>
      (rfc3339Parse ts).map fun t =>
        ⟨"azure_monitor", fs, [("resource_id", resourceId)], t⟩

/-! ## Concrete inputs used by the example-based theorems -/

/-- The sample 200-status body from the spec's testable properties. -/
def body6 : String :=
  "\x7b\"value\":[\x7b\"name\":\x7b\"value\":\"Percentage CPU\"\x7d,\"timeseries\":[\x7b\"data\":[\x7b\"average\":42.5,\"timeStamp\":\"2024-01-01T00:00:00Z\"\x7d]\x7d]\x7d]\x7d"

/-- The sample 200-status response carrying `body6`. -/
def resp6 : HttpResponse := ⟨200, .ok body6⟩

/-- What `body6` decodes to: every absent leaf keeps its zero value. -/
def mr6 : AzureMonitorResponse :=
  ⟨0, "", "", "", "",
    [⟨"", "", "", ⟨"", "Percentage CPU"⟩,
      [⟨[⟨mkRat 85 2, "2024-01-01T00:00:00Z"⟩], []⟩], "", ""⟩]⟩

/-- The sample error body from the spec's testable properties. -/
def bodyNotFound : String := "\x7b\"error\":\"not found\"\x7d"

/-- A 404 response carrying `bodyNotFound`. -/
def resp404 : HttpResponse := ⟨404, .ok bodyNotFound⟩

/-- A 200-status body with one malformed and one valid timestamp. -/
def bodyMixed : String :=
  "\x7b\"value\":[\x7b\"name\":\x7b\"value\":\"cpu\"\x7d,\"timeseries\":[\x7b\"data\":[\x7b\"average\":1,\"timeStamp\":\"not-a-date\"\x7d,\x7b\"average\":2,\"timeStamp\":\"2024-01-01T00:00:00Z\"\x7d]\x7d]\x7d]\x7d"

/-- A 200 response carrying `bodyMixed`. -/
def respMixed : HttpResponse := ⟨200, .ok bodyMixed⟩

/-- What `bodyMixed` decodes to. -/
def mrMixed : AzureMonitorResponse :=
  ⟨0, "", "", "", "",
    [⟨"", "", "", ⟨"", "cpu"⟩,
      [⟨[⟨((1 : Int) : ℚ), "not-a-date"⟩, ⟨((2 : Int) : ℚ), "2024-01-01T00:00:00Z"⟩], []⟩],
      "", ""⟩]⟩

/-- A valid RFC3339 timestamp string used by concrete responses. -/
def tsJan : String := "2024-01-01T00:00:00Z"

/-- The parse of `tsJan`. -/
def tJan : ParsedTime := ⟨2024, 1, 1, 0, 0, 0, 0, 0⟩

/-- A second valid RFC3339 timestamp string. -/
def tsFeb : String := "2024-02-01T00:00:00Z"

/-- The parse of `tsFeb`. -/
def tFeb : ParsedTime := ⟨2024, 2, 1, 0, 0, 0, 0, 0⟩

/-- A response in which the same metric reports the same timestamp in two
different TimeSeries. -/
def rDup : AzureMonitorResponse :=
  ⟨0, "", "", "", "",
    [⟨"", "", "", ⟨"", "cpu"⟩,
      [⟨[⟨1, tsJan⟩], []⟩, ⟨[⟨2, tsJan⟩], []⟩], "", ""⟩]⟩

/-- A response with two distinct timestamps. -/
def rTwo : AzureMonitorResponse :=
  ⟨0, "", "", "", "",
    [⟨"", "", "", ⟨"", "cpu"⟩,
      [⟨[⟨1, tsJan⟩, ⟨2, tsFeb⟩], []⟩], "", ""⟩]⟩

/-- A metric value with no TimeSeries at all. -/
def vEmptySeries : AzureMonitorResponseValue :=
  ⟨"", "", "", ⟨"", "idle"⟩, [], "", ""⟩

/-- `rTwo` with `vEmptySeries` spliced into the middle of its metric list. -/
def rTwoPadded : AzureMonitorResponse :=
  ⟨0, "", "", "", "",
    [⟨"", "", "", ⟨"", "cpu"⟩,
      [⟨[⟨1, tsJan⟩, ⟨2, tsFeb⟩], []⟩], "", ""⟩, vEmptySeries]⟩

/-- A concretely configured plugin value. -/
def azm : AzureMonitor := ⟨"RID", none⟩

/-! ## Association-list lemmas -/

theorem fieldsInsert_ne_nil (fs : Fields) (name : String) (avg : ℚ) :
    fieldsInsert fs name avg ≠ [] := by
  cases fs with
  | nil => simp [fieldsInsert]
  | cons kv rest =>
    obtain ⟨k, v⟩ := kv
    by_cases h : k = name <;> simp [fieldsInsert, h]

theorem keys_fieldsInsert (fs : Fields) (name : String) (avg : ℚ) :
    (fieldsInsert fs name avg).map Prod.fst =
      if name ∈ fs.map Prod.fst then fs.map Prod.fst
      else fs.map Prod.fst ++ [name] := by
  induction fs with
  | nil => simp [fieldsInsert]
  | cons kv rest ih =>
    obtain ⟨k, v⟩ := kv
    by_cases h : k = name
    · subst h
      simp [fieldsInsert]
    · have h' : ¬name = k := fun hh => h hh.symm
      simp only [fieldsInsert, if_neg h, List.map_cons, ih]
      by_cases hm : name ∈ rest.map Prod.fst
      · simp [List.mem_cons, hm, h']
      · simp [List.mem_cons, hm, h']

theorem mem_keys_fieldsInsert_self (fs : Fields) (name : String) (avg : ℚ) :
    name ∈ (fieldsInsert fs name avg).map Prod.fst := by
  rw [keys_fieldsInsert]
  by_cases h : name ∈ fs.map Prod.fst <;> simp [h]

theorem mem_keys_fieldsInsert_of_mem (fs : Fields) (name n : String) (avg : ℚ)
    (h : n ∈ fs.map Prod.fst) :
    n ∈ (fieldsInsert fs name avg).map Prod.fst := by
  rw [keys_fieldsInsert]
  by_cases hm : name ∈ fs.map Prod.fst <;> simp [hm, h]

theorem nodup_keys_fieldsInsert (fs : Fields) (name : String) (avg : ℚ)
    (h : (fs.map Prod.fst).Nodup) :
    ((fieldsInsert fs name avg).map Prod.fst).Nodup := by
  rw [keys_fieldsInsert]
  by_cases hm : name ∈ fs.map Prod.fst
  · simpa [hm]
  · simpa [hm, List.nodup_append] using h

theorem lookupF_fieldsInsert_self (fs : Fields) (name : String) (avg : ℚ) :
    lookupF (fieldsInsert fs name avg) name = some avg := by
  induction fs with
  | nil => simp [fieldsInsert, lookupF]
  | cons kv rest ih =>
    obtain ⟨k, v⟩ := kv
    by_cases h : k = name
    · subst h
      simp [fieldsInsert, lookupF]
    · simp [fieldsInsert, lookupF, h, ih]

theorem lookupF_fieldsInsert_ne (fs : Fields) (name n : String) (avg : ℚ)
    (h : n ≠ name) :
    lookupF (fieldsInsert fs name avg) n = lookupF fs n := by
  have h' : ¬name = n := fun hh => h hh.symm
  induction fs with
  | nil => simp [fieldsInsert, lookupF, h']
  | cons kv rest ih =>
    obtain ⟨k, v⟩ := kv
    by_cases hk : k = name
    · subst hk
      simp [fieldsInsert, lookupF, h']
    · by_cases hn : k = n <;> simp [fieldsInsert, lookupF, hk, hn, ih, h]

theorem mem_fieldsInsert (fs : Fields) (name : String) (avg : ℚ) (nq : String × ℚ)
    (h : nq ∈ fieldsInsert fs name avg) : nq = (name, avg) ∨ nq ∈ fs := by
  induction fs with
  | nil => simpa [fieldsInsert] using h
  | cons kv rest ih =>
    obtain ⟨k, v⟩ := kv
    by_cases hk : k = name
    · subst hk
      rcases (by simpa [fieldsInsert] using h : nq = (k, avg) ∨ nq ∈ rest) with h' | h'
      · exact Or.inl h'
      · exact Or.inr (List.mem_cons_of_mem _ h')
    · rcases (by simpa [fieldsInsert, hk] using h : nq = (k, v) ∨ nq ∈ fieldsInsert rest name avg) with h' | h'
      · exact Or.inr (by simp [h'])
      · rcases ih h' with h'' | h''
        · exact Or.inl h''
        · exact Or.inr (List.mem_cons_of_mem _ h'')

theorem keys_bucketsInsert (m : Buckets) (ts name : String) (avg : ℚ) :
    (bucketsInsert m ts name avg).map Prod.fst =
      if ts ∈ m.map Prod.fst then m.map Prod.fst
      else m.map Prod.fst ++ [ts] := by
  induction m with
  | nil => simp [bucketsInsert]
  | cons tfs rest ih =>
    obtain ⟨t, fs⟩ := tfs
    by_cases h : t = ts
    · subst h
      simp [bucketsInsert]
    · have h' : ¬ts = t := fun hh => h hh.symm
      simp only [bucketsInsert, if_neg h, List.map_cons, ih]
      by_cases hm : ts ∈ rest.map Prod.fst
      · simp [List.mem_cons, hm, h']
      · simp [List.mem_cons, hm, h']

theorem mem_keys_bucketsInsert (m : Buckets) (ts ts' name : String) (avg : ℚ) :
    ts' ∈ (bucketsInsert m ts name avg).map Prod.fst ↔
      ts' ∈ m.map Prod.fst ∨ ts' = ts := by
  rw [keys_bucketsInsert]
  by_cases hm : ts ∈ m.map Prod.fst
  · simp only [if_pos hm]
    constructor
    · exact Or.inl
    · rintro (h | rfl)
      · exact h
      · exact hm
  · simp [if_neg hm]

theorem nodup_keys_bucketsInsert (m : Buckets) (ts name : String) (avg : ℚ)
    (h : (m.map Prod.fst).Nodup) :
    ((bucketsInsert m ts name avg).map Prod.fst).Nodup := by
  rw [keys_bucketsInsert]
  by_cases hm : ts ∈ m.map Prod.fst
  · simpa [hm]
  · simpa [hm, List.nodup_append] using h

theorem lookupTs_bucketsInsert_self (m : Buckets) (ts name : String) (avg : ℚ) :
    lookupTs (bucketsInsert m ts name avg) ts =
      some (fieldsInsert ((lookupTs m ts).getD []) name avg) := by
  induction m with
  | nil => simp [bucketsInsert, lookupTs]
  | cons tfs rest ih =>
    obtain ⟨t, fs⟩ := tfs
    by_cases h : t = ts
    · subst h
      simp [bucketsInsert, lookupTs]
    · simp [bucketsInsert, lookupTs, h, ih]

theorem lookupTs_bucketsInsert_ne (m : Buckets) (ts ts' name : String) (avg : ℚ)
    (h : ts' ≠ ts) :
    lookupTs (bucketsInsert m ts name avg) ts' = lookupTs m ts' := by
  have h' : ¬ts = ts' := fun hh => h hh.symm
  induction m with
  | nil => simp [bucketsInsert, lookupTs, h']
  | cons tfs rest ih =>
    obtain ⟨t, fs⟩ := tfs
    by_cases ht : t = ts
    · subst ht
      simp [bucketsInsert, lookupTs, h']
    · by_cases ht' : t = ts' <;> simp [bucketsInsert, lookupTs, ht, ht', ih, h]

theorem mem_bucketsInsert (m : Buckets) (ts name : String) (avg : ℚ)
    (p : String × Fields) (h : p ∈ bucketsInsert m ts name avg) :
    p ∈ m ∨ ∃ old, p = (ts, fieldsInsert old name avg) ∧ ((ts, old) ∈ m ∨ old = []) := by
  induction m with
  | nil =>
    right
    refine ⟨[], ?_, Or.inr rfl⟩
    simpa [bucketsInsert] using h
  | cons tfs rest ih =>
    obtain ⟨t, fs⟩ := tfs
    by_cases ht : t = ts
    · subst ht
      have hcase : p = (t, fieldsInsert fs name avg) ∨ p ∈ rest := by
        simpa [bucketsInsert] using h
      rcases hcase with h' | h'
      · exact Or.inr ⟨fs, h', Or.inl (List.mem_cons_self _ _)⟩
      · exact Or.inl (List.mem_cons_of_mem _ h')
    · have hcase : p = (t, fs) ∨ p ∈ bucketsInsert rest ts name avg := by
        simpa [bucketsInsert, ht] using h
      rcases hcase with h' | h'
      · exact Or.inl (by simp [h'])
      · rcases ih h' with h'' | ⟨old, rfl, h''⟩
        · exact Or.inl (List.mem_cons_of_mem _ h'')
        · rcases h'' with h'' | rfl
          · exact Or.inr ⟨old, rfl, Or.inl (List.mem_cons_of_mem _ h'')⟩
          · exact Or.inr ⟨[], rfl, Or.inr rfl⟩

theorem lookupTs_eq_some_of_mem (m : Buckets) (ts : String) (fs : Fields)
    (hnd : (m.map Prod.fst).Nodup) (h : (ts, fs) ∈ m) :
    lookupTs m ts = some fs := by
  induction m with
  | nil => simp at h
  | cons tfs rest ih =>
    obtain ⟨t, fs'⟩ := tfs
    rcases (by simpa using h : (ts = t ∧ fs = fs') ∨ (ts, fs) ∈ rest) with ⟨rfl, rfl⟩ | h'
    · simp [lookupTs]
    · have hnd2 : t ∉ List.map Prod.fst rest ∧ (List.map Prod.fst rest).Nodup := by
        rw [List.map_cons, List.nodup_cons] at hnd
        exact hnd
      have ht : t ≠ ts := by
        rintro rfl
        exact hnd2.1 (List.mem_map_of_mem Prod.fst h')
      simp only [lookupTs, if_neg ht]
      exact ih hnd2.2 h'

theorem lookupTs_isSome_iff_mem_keys (m : Buckets) (ts : String) :
    (lookupTs m ts).isSome ↔ ts ∈ m.map Prod.fst := by
  induction m with
  | nil => simp [lookupTs]
  | cons tfs rest ih =>
    obtain ⟨t, fs⟩ := tfs
    by_cases h : t = ts
    · subst h
      simp [lookupTs]
    · have h' : ¬ts = t := fun hh => h hh.symm
      simp [lookupTs, h, h', ih]

/-! ## insertAll: the flattened form of the bucketizing loops -/

theorem insertAll_nil (m : Buckets) : insertAll m [] = m := rfl

theorem insertAll_cons (m : Buckets) (p : NamedDatum) (ps : List NamedDatum) :
    insertAll m (p :: ps) =
      insertAll (bucketsInsert m p.2.TimeStamp p.1 p.2.Average) ps := rfl

theorem insertAll_append (m : Buckets) (ps qs : List NamedDatum) :
    insertAll m (ps ++ qs) = insertAll (insertAll m ps) qs := by
  simp [insertAll, List.foldl_append]

theorem data_foldl_eq_insertAll (name : String)
    (ds : List AzureMonitorResponseTimeSeriesDatum) (m : Buckets) :
    ds.foldl (fun m datum => bucketsInsert m datum.TimeStamp name datum.Average) m =
      insertAll m (ds.map fun d => (name, d)) := by
  induction ds generalizing m with
  | nil => rfl
  | cons d ds ih => simp [insertAll_cons, ih]

theorem series_foldl_eq_insertAll (name : String)
    (ss : List AzureMonitorResponseTimeSeries) (m : Buckets) :
    ss.foldl (fun m ts =>
        ts.Data.foldl (fun m datum =>
          bucketsInsert m datum.TimeStamp name datum.Average) m) m =
      insertAll m (ss.flatMap fun s => s.Data.map fun d => (name, d)) := by
  induction ss generalizing m with
  | nil => rfl
  | cons s ss ih =>
    rw [List.foldl_cons, ih, data_foldl_eq_insertAll, List.flatMap_cons,
      insertAll_append]

theorem bucketize_eq_insertAll (r : AzureMonitorResponse) :
    bucketize r = insertAll [] (allData r) := by
  unfold bucketize allData
  generalize r.Value = vs
  generalize ([] : Buckets) = m
  induction vs generalizing m with
  | nil => rfl
  | cons v vs ih =>
    rw [List.foldl_cons, ih, series_foldl_eq_insertAll, List.flatMap_cons,
      insertAll_append]

/-! ## Invariants of insertAll -/

theorem mem_keys_insertAll (ps : List NamedDatum) (m : Buckets) (ts : String) :
    ts ∈ (insertAll m ps).map Prod.fst ↔
      ts ∈ m.map Prod.fst ∨ ts ∈ ps.map fun p => p.2.TimeStamp := by
  induction ps generalizing m with
  | nil => simp [insertAll_nil]
  | cons p ps ih =>
    rw [insertAll_cons, ih]
    rw [mem_keys_bucketsInsert]
    simp only [List.map_cons, List.mem_cons]
    tauto

theorem nodup_keys_insertAll (ps : List NamedDatum) (m : Buckets)
    (h : (m.map Prod.fst).Nodup) :
    ((insertAll m ps).map Prod.fst).Nodup := by
  induction ps generalizing m with
  | nil => simpa [insertAll_nil]
  | cons p ps ih =>
    rw [insertAll_cons]
    exact ih _ (nodup_keys_bucketsInsert _ _ _ _ h)

theorem insertAll_preserves_name (ps : List NamedDatum) (m : Buckets)
    (ts n : String) (fs : Fields)
    (h : lookupTs m ts = some fs) (hn : n ∈ fs.map Prod.fst) :
    ∃ fs', lookupTs (insertAll m ps) ts = some fs' ∧ n ∈ fs'.map Prod.fst := by
  induction ps generalizing m fs with
  | nil => exact ⟨fs, by simpa [insertAll_nil] using h, hn⟩
  | cons p ps ih =>
    rw [insertAll_cons]
    by_cases hts : p.2.TimeStamp = ts
    · subst hts
      refine ih _ _ (lookupTs_bucketsInsert_self _ _ _ _) ?_
      simp only [h, Option.getD_some]
      exact mem_keys_fieldsInsert_of_mem _ _ _ _ hn
    · have hne : ts ≠ p.2.TimeStamp := fun hh => hts hh.symm
      refine ih _ _ ?_ hn
      rw [lookupTs_bucketsInsert_ne _ _ _ _ _ hne]
      exact h

theorem insertAll_mem_name (ps : List NamedDatum) (m : Buckets) (p : NamedDatum)
    (hp : p ∈ ps) :
    ∃ fs, lookupTs (insertAll m ps) p.2.TimeStamp = some fs ∧
      p.1 ∈ fs.map Prod.fst := by
  induction ps generalizing m with
  | nil => simp at hp
  | cons q ps ih =>
    rcases List.mem_cons.mp hp with rfl | hp
    · rw [insertAll_cons]
      exact insertAll_preserves_name _ _ _ _ _
        (lookupTs_bucketsInsert_self _ _ _ _) (mem_keys_fieldsInsert_self _ _ _)
    · rw [insertAll_cons]
      exact ih _ hp

theorem insertAll_lookup_last (ps : List NamedDatum) (m : Buckets) (ts n : String) :
    (lookupTs (insertAll m ps) ts).bind (fun fs => lookupF fs n) =
      match (ps.filter fun p => p.1 = n ∧ p.2.TimeStamp = ts).getLast? with
      | some p => some p.2.Average
      | none => (lookupTs m ts).bind fun fs => lookupF fs n := by
  induction ps using List.reverseRecOn with
  | nil => simp [insertAll_nil]
  | append_singleton ps p ih =>
    rw [insertAll_append, List.filter_append]
    by_cases hp : p.1 = n ∧ p.2.TimeStamp = ts
    · obtain ⟨hn, hts⟩ := hp
      have hfilter : List.filter (fun p => decide (p.1 = n ∧ p.2.TimeStamp = ts)) [p] = [p] := by
        simp [hn, hts]
      rw [hfilter, List.getLast?_concat]
      show (lookupTs (bucketsInsert (insertAll m ps) p.2.TimeStamp p.1 p.2.Average) ts).bind
          (fun fs => lookupF fs n) = some p.2.Average
      rw [hts, lookupTs_bucketsInsert_self, Option.some_bind, hn,
        lookupF_fieldsInsert_self]
    · have hfilter : List.filter (fun p => decide (p.1 = n ∧ p.2.TimeStamp = ts)) [p] = [] := by
        simp [hp]
      rw [hfilter, List.append_nil, ← ih]
      show (lookupTs (bucketsInsert (insertAll m ps) p.2.TimeStamp p.1 p.2.Average) ts).bind
          (fun fs => lookupF fs n) = (lookupTs (insertAll m ps) ts).bind fun fs => lookupF fs n
      by_cases hts : p.2.TimeStamp = ts
      · subst hts
        have hn : n ≠ p.1 := by
          intro hh
          exact hp ⟨hh.symm, rfl⟩
        rw [lookupTs_bucketsInsert_self, Option.some_bind,
          lookupF_fieldsInsert_ne _ _ _ _ hn]
        cases hcase : lookupTs (insertAll m ps) p.2.TimeStamp with
        | none => simp [lookupF]
        | some fs => simp
      · have hne : ts ≠ p.2.TimeStamp := fun hh => hts hh.symm
        rw [lookupTs_bucketsInsert_ne _ _ _ _ _ hne]

/-- The bucket-contents invariant: every field of every bucket of
`insertAll m ps` satisfies `Q` (with the bucket's timestamp key) provided
every field already in `m` does and every named datum of `ps` does; and no
bucket is empty provided none of `m`'s are. -/
theorem insertAll_inv (Q : String → String → ℚ → Prop) (ps : List NamedDatum)
    (m : Buckets)
    (hm : ∀ ts fs, (ts, fs) ∈ m → fs ≠ [] ∧ ∀ nq ∈ fs, Q ts nq.1 nq.2)
    (hps : ∀ p ∈ ps, Q p.2.TimeStamp p.1 p.2.Average) :
    ∀ ts fs, (ts, fs) ∈ insertAll m ps → fs ≠ [] ∧ ∀ nq ∈ fs, Q ts nq.1 nq.2 := by
  induction ps generalizing m with
  | nil => simpa [insertAll_nil] using hm
  | cons p ps ih =>
    rw [insertAll_cons]
    refine ih _ ?_ fun q hq => hps q (List.mem_cons_of_mem _ hq)
    intro ts fs hmem
    rcases mem_bucketsInsert _ _ _ _ _ hmem with h' | ⟨old, heq, hold⟩
    · exact hm ts fs h'
    · obtain ⟨rfl, rfl⟩ := Prod.mk.injEq .. ▸ And.intro (congrArg Prod.fst heq) (congrArg Prod.snd heq)
      refine ⟨fieldsInsert_ne_nil _ _ _, ?_⟩
      intro nq hnq
      rcases mem_fieldsInsert _ _ _ _ hnq with rfl | hnq'
      · exact hps p (List.mem_cons_self _ _)
      · rcases hold with hold | rfl
        · exact (hm _ _ hold).2 nq hnq'
        · simp at hnq'

/-- Buckets built by `insertAll` from a bucket list with duplicate-free
field keys again have duplicate-free field keys. -/
theorem insertAll_fields_nodup (ps : List NamedDatum) (m : Buckets)
    (hm : ∀ ts fs, (ts, fs) ∈ m → (fs.map Prod.fst).Nodup) :
    ∀ ts fs, (ts, fs) ∈ insertAll m ps → (fs.map Prod.fst).Nodup := by
  induction ps generalizing m with
  | nil => simpa [insertAll_nil] using hm
  | cons p ps ih =>
    rw [insertAll_cons]
    refine ih _ ?_
    intro ts fs hmem
    rcases mem_bucketsInsert _ _ _ _ _ hmem with h' | ⟨old, heq, hold⟩
    · exact hm ts fs h'
    · obtain ⟨rfl, rfl⟩ := Prod.mk.injEq .. ▸ And.intro (congrArg Prod.fst heq) (congrArg Prod.snd heq)
      refine nodup_keys_fieldsInsert _ _ _ ?_
      rcases hold with hold | rfl
      · exact hm _ _ hold
      · simp

/-! ## Emission lemmas -/

theorem mem_emitBuckets (resourceId : String) (m : Buckets) (e : Emission) :
    e ∈ emitBuckets resourceId m ↔
      ∃ p ∈ m, rfc3339Parse p.1 = some e.timestamp ∧
        e = ⟨"azure_monitor", p.2, [("resource_id", resourceId)], e.timestamp⟩ := by
  unfold emitBuckets
  rw [List.mem_filterMap]
  constructor
  · rintro ⟨p, hp, hf⟩
    rcases Option.map_eq_some'.mp hf with ⟨t, ht, rfl⟩
    exact ⟨p, hp, ht, rfl⟩
  · rintro ⟨p, hp, ht, he⟩
    refine ⟨p, hp, ?_⟩
    rw [ht, Option.map_some', ← he]

theorem emitBuckets_mk_mem (resourceId : String) (m : Buckets) (p : String × Fields)
    (t : ParsedTime) (hp : p ∈ m) (ht : rfc3339Parse p.1 = some t) :
    (⟨"azure_monitor", p.2, [("resource_id", resourceId)], t⟩ : Emission) ∈
      emitBuckets resourceId m := by
  refine List.mem_filterMap.mpr ⟨p, hp, ?_⟩
  rw [ht, Option.map_some']

theorem length_emitBuckets (resourceId : String) (m : Buckets) :
    (emitBuckets resourceId m).length =
      (m.filter fun p => (rfc3339Parse p.1).isSome).length := by
  induction m with
  | nil => rfl
  | cons p rest ih =>
    unfold emitBuckets at ih ⊢
    rw [List.filterMap_cons]
    cases hcase : rfc3339Parse p.1 with
    | none => simp [hcase, ih]
    | some t => simp [hcase, ih]

theorem emitAlong_cons_not_mem (resourceId ts : String) (fs : Fields) (m : Buckets)
    (order : List String) (h : ts ∉ order) :
    emitAlong resourceId ((ts, fs) :: m) order = emitAlong resourceId m order := by
  induction order with
  | nil => rfl
  | cons o os ih =>
    have hne : ts ≠ o := fun hh => h (hh ▸ List.mem_cons_self _ _)
    unfold emitAlong at ih ⊢
    rw [List.filterMap_cons, List.filterMap_cons,
      ih fun hh => h (List.mem_cons_of_mem _ hh)]
    have : lookupTs ((ts, fs) :: m) o = lookupTs m o := by
      simp [lookupTs, hne]
    rw [this]

theorem emitAlong_keys (resourceId : String) (m : Buckets)
    (h : (m.map Prod.fst).Nodup) :
    emitAlong resourceId m (m.map Prod.fst) = emitBuckets resourceId m := by
  induction m with
  | nil => rfl
  | cons p rest ih =>
    obtain ⟨ts, fs⟩ := p
    rw [List.map_cons] at h ⊢
    have hts : ts ∉ rest.map Prod.fst := (List.nodup_cons.mp h).1
    have hrest : (rest.map Prod.fst).Nodup := (List.nodup_cons.mp h).2
    show emitAlong resourceId ((ts, fs) :: rest) (ts :: rest.map Prod.fst) = _
    unfold emitAlong
    rw [List.filterMap_cons]
    have hl : lookupTs ((ts, fs) :: rest) ts = some fs := by simp [lookupTs]
    rw [hl]
    have htail : List.filterMap (fun ts' =>
        (lookupTs ((ts, fs) :: rest) ts').bind fun fs' =>
          (rfc3339Parse ts').map fun t =>
            (⟨"azure_monitor", fs', [("resource_id", resourceId)], t⟩ : Emission))
          (rest.map Prod.fst) = emitBuckets resourceId rest := by
      rw [show List.filterMap (fun ts' =>
          (lookupTs ((ts, fs) :: rest) ts').bind fun fs' =>
            (rfc3339Parse ts').map fun t =>
              (⟨"azure_monitor", fs', [("resource_id", resourceId)], t⟩ : Emission))
            (rest.map Prod.fst) =
          emitAlong resourceId ((ts, fs) :: rest) (rest.map Prod.fst) from rfl]
      rw [emitAlong_cons_not_mem _ _ _ _ _ hts]
      exact ih hrest
    rw [htail]
    unfold emitBuckets
    rw [List.filterMap_cons]
    cases hcase : rfc3339Parse ts with
    | none => simp [hcase]
    | some t => simp [hcase]

/-! ## Claim theorems -/

/-- **C2**: `parseResponse` classifies failures as follows: an I/O failure
while reading the body is returned as a transport error; any HTTP status
outside the inclusive range [200, 299] is returned as a provider error
whose message carries the status code and the raw response body text
verbatim, and this status check happens before any JSON decoding is
attempted (the result does not depend on the decoder at all); a 2xx body
that is not valid JSON is returned as a decode error; otherwise the
decoded `MonitorResponse` is returned with no error. -/
theorem parseResponse_classification :
    (∀ (resp : HttpResponse) (e : String), resp.BodyRead = .error e →
      ∀ dec, parseResponseWith dec resp = .error (.transport e)) ∧
    (∀ (resp : HttpResponse) (body : String), resp.BodyRead = .ok body →
      (resp.StatusCode < 200 ∨ 299 < resp.StatusCode) →
      (∀ dec, parseResponseWith dec resp = .error (.provider resp.StatusCode body)) ∧
      (AzError.provider resp.StatusCode body).message =
        "Azure monitor request returned error. Status " ++
          toString resp.StatusCode ++ ":\n" ++ body) ∧
    (∀ (resp : HttpResponse) (body e : String), resp.BodyRead = .ok body →
      200 ≤ resp.StatusCode → resp.StatusCode ≤ 299 →
      decodeMonitorResponse body = .error e →
      parseResponse resp = .error (.decode e)) ∧
    (∀ (resp : HttpResponse) (body : String) (r : AzureMonitorResponse),
      resp.BodyRead = .ok body →
      200 ≤ resp.StatusCode → resp.StatusCode ≤ 299 →
      decodeMonitorResponse body = .ok r →
      parseResponse resp = .ok r) := by
  refine ⟨?_, ?_, ?_, ?_⟩
  · intro resp e h dec
    simp only [parseResponseWith, h]
  · intro resp body h hs
    refine ⟨?_, rfl⟩
    intro dec
    simp only [parseResponseWith, h]
    rw [if_pos hs]
  · intro resp body e h h₁ h₂ hdec
    have hs : ¬(resp.StatusCode < 200 ∨ 299 < resp.StatusCode) := by omega
    simp only [parseResponse, parseResponseWith, h]
    rw [if_neg hs, hdec]
  · intro resp body r h h₁ h₂ hdec
    have hs : ¬(resp.StatusCode < 200 ∨ 299 < resp.StatusCode) := by omega
    simp only [parseResponse, parseResponseWith, h]
    rw [if_neg hs, hdec]

/-- Witness for C2: the classification evaluated on concrete responses,
including the spec's 404 example with body `\x7b"error":"not found"\x7d`. -/
theorem parseResponse_classification_witness :
    parseResponseWith decodeMonitorResponse ⟨200, .error "read failure"⟩ =
      .error (.transport "read failure") ∧
    parseResponse resp404 = .error (.provider 404 bodyNotFound) ∧
    (AzError.provider 404 bodyNotFound).message =
      "Azure monitor request returned error. Status 404:\n\x7b\"error\":\"not found\"\x7d" ∧
    parseResponse ⟨200, .ok "oops"⟩ = .error (.decode "invalid JSON") ∧
    parseResponse ⟨204, .ok "null"⟩ = .ok zeroResponse := by
  refine ⟨?_, ?_, ?_, ?_, ?_⟩
  · exact parseResponse_classification.1 _ "read failure" rfl _
  · exact (parseResponse_classification.2.1 resp404 bodyNotFound rfl
      (by decide)).1 decodeMonitorResponse
  · exact ((parseResponse_classification.2.1 resp404 bodyNotFound rfl
      (by decide)).2).trans (by rfl)
  · exact parseResponse_classification.2.2.1 _ "oops" "invalid JSON" rfl
      (by decide) (by decide) (by rfl)
  · exact parseResponse_classification.2.2.2 _ "null" zeroResponse rfl
      (by decide) (by decide) (by rfl)

/-- **C8**: `Init` called with an empty `resource_id` returns a
configuration error before any credential acquisition is attempted (its
result does not depend on the acquisition outcome at all); with a
non-empty `resource_id` the empty-string check passes and credential
acquisition proceeds (its outcome decides the result). -/
theorem init_requires_resource_id :
    (∀ (a : AzureMonitor) (e₁ e₂ : Except String Authorizer),
      a.ResourceId = "" → a.Init e₁ = a.Init e₂) ∧
    (∀ (a : AzureMonitor) (e : Except String Authorizer), a.ResourceId = "" →
      a.Init e = .error (.config "resource_id must be configured")) ∧
    (∀ (a : AzureMonitor) (au : Authorizer), a.ResourceId ≠ "" →
      a.Init (.ok au) = .ok { a with authorizer := some au }) ∧
    (∀ (a : AzureMonitor) (err : String), a.ResourceId ≠ "" →
      a.Init (.error err) = .error (.credential err)) := by
  refine ⟨?_, ?_, ?_, ?_⟩
  · intro a e₁ e₂ h
    unfold AzureMonitor.Init
    rw [if_pos h, if_pos h]
  · intro a e h
    unfold AzureMonitor.Init
    rw [if_pos h]
  · intro a au h
    unfold AzureMonitor.Init
    rw [if_neg h]
  · intro a err h
    unfold AzureMonitor.Init
    rw [if_neg h]

/-- Witness for C8: `Init` evaluated on a plugin with an empty and a
non-empty resource id. -/
theorem init_requires_resource_id_witness :
    AzureMonitor.Init ⟨"", none⟩ (.ok ⟨"tok"⟩) =
      .error (.config "resource_id must be configured") ∧
    AzureMonitor.Init ⟨"", none⟩ (.ok ⟨"tok"⟩) =
      AzureMonitor.Init ⟨"", none⟩ (.error "no env") ∧
    AzureMonitor.Init azm (.ok ⟨"tok"⟩) = .ok ⟨"RID", some ⟨"tok"⟩⟩ ∧
    AzureMonitor.Init azm (.error "no env") = .error (.credential "no env") := by
  refine ⟨?_, ?_, ?_, ?_⟩
  · exact init_requires_resource_id.2.1 ⟨"", none⟩ _ rfl
  · exact init_requires_resource_id.1 ⟨"", none⟩ _ _ rfl
  · exact init_requires_resource_id.2.2.1 azm ⟨"tok"⟩ (by decide)
  · exact init_requires_resource_id.2.2.2 azm "no env" (by decide)

/-- Unfolding lemma: `Gather` on a completed request is decided by
`parseResponse`. -/
theorem gather_ok_eq (a : AzureMonitor) (resp : HttpResponse) :
    gather a (.ok resp) =
      match parseResponse resp with
      | .error e => ([], some e)
      | .ok mr => (emitBuckets a.ResourceId (bucketize mr), none) := rfl

/-- Unfolding lemma: `Gather` on a failed request reports the transport
error. -/
theorem gather_error_eq (a : AzureMonitor) (e : String) :
    gather a (.error e) = ([], some (.transport e)) := rfl

/-- **C5**: if the request or the parse step fails (transport, provider,
or decode error), `Gather` returns that error having made no call to the
accumulator's add-fields operation: a failed cycle's emission list is
empty. -/
theorem gather_no_partial_emission :
    (∀ (a : AzureMonitor) (request : Except String HttpResponse) (err : AzError),
      (gather a request).2 = some err → (gather a request).1 = []) ∧
    (∀ (a : AzureMonitor) (e : String),
      gather a (.error e) = ([], some (.transport e))) ∧
    (∀ (a : AzureMonitor) (resp : HttpResponse) (err : AzError),
      parseResponse resp = .error err → gather a (.ok resp) = ([], some err)) := by
  refine ⟨?_, ?_, ?_⟩
  · intro a request err h
    cases request with
    | error e => rfl
    | ok resp =>
      rw [gather_ok_eq] at h ⊢
      cases hp : parseResponse resp with
      | error e => rfl
      | ok mr =>
        rw [hp] at h
        simp at h
  · intro a e
    rfl
  · intro a resp err h
    rw [gather_ok_eq, h]

/-- Witness for C5: a failed request and a failed parse both yield an
empty emission list together with the error. -/
theorem gather_no_partial_emission_witness :
    gather azm (.error "connection refused") =
      ([], some (.transport "connection refused")) ∧
    gather azm (.ok resp404) = ([], some (.provider 404 bodyNotFound)) ∧
    (gather azm (.ok resp404)).1 = [] := by
  refine ⟨?_, ?_, ?_⟩
  · exact gather_no_partial_emission.2.1 azm "connection refused"
  · exact gather_no_partial_emission.2.2 azm resp404 _ (by rfl)
  · exact gather_no_partial_emission.1 azm (.ok resp404) (.provider 404 bodyNotFound)
      (by rfl)

/-- **C7**: a `MonitorResponse` whose `Value` array is empty bucketizes to
zero FieldSets and `Gather` succeeds emitting nothing; a `MetricValue`
with an empty `TimeSeries` list contributes nothing to the buckets. -/
theorem gather_empty_value_yields_nothing :
    (∀ (r : AzureMonitorResponse), r.Value = [] → bucketize r = []) ∧
    (∀ (a : AzureMonitor) (resp : HttpResponse) (r : AzureMonitorResponse),
      parseResponse resp = .ok r → r.Value = [] →
      gather a (.ok resp) = ([], none)) ∧
    (∀ (r : AzureMonitorResponse) (v : AzureMonitorResponseValue)
      (vs₁ vs₂ : List AzureMonitorResponseValue),
      r.Value = vs₁ ++ v :: vs₂ → v.TimeSeries = [] →
      bucketize r =
        bucketize ⟨r.Cost, r.Interval, r.Namespace, r.ResourceRegion,
          r.Timespan, vs₁ ++ vs₂⟩) := by
  have hempty : ∀ (r : AzureMonitorResponse), r.Value = [] → bucketize r = [] := by
    intro r h
    unfold bucketize
    rw [h]
    rfl
  refine ⟨hempty, ?_, ?_⟩
  · intro a resp r hp hv
    rw [gather_ok_eq, hp]
    show (emitBuckets a.ResourceId (bucketize r), none) = ([], none)
    rw [hempty r hv]
    rfl
  · intro r v vs₁ vs₂ hval hts
    unfold bucketize
    rw [hval]
    show (vs₁ ++ v :: vs₂).foldl _ [] = (vs₁ ++ vs₂).foldl _ []
    rw [List.foldl_append, List.foldl_append, List.foldl_cons, hts]
    rfl

/-- Witness for C7: the empty-object body decodes to a response with no
metric values and gathers nothing; splicing a series-free metric value
into a response does not change its buckets. -/
theorem gather_empty_value_yields_nothing_witness :
    bucketize zeroResponse = [] ∧
    gather azm (.ok ⟨200, .ok "\x7b\x7d"⟩) = ([], none) ∧
    bucketize rTwoPadded = bucketize rTwo := by
  refine ⟨?_, ?_, ?_⟩
  · exact gather_empty_value_yields_nothing.1 zeroResponse rfl
  · exact gather_empty_value_yields_nothing.2.1 azm _ zeroResponse (by rfl) rfl
  · exact (gather_empty_value_yields_nothing.2.2 rTwoPadded vEmptySeries
      [⟨"", "", "", ⟨"", "cpu"⟩, [⟨[⟨1, tsJan⟩, ⟨2, tsFeb⟩], []⟩], "", ""⟩] []
      (by rfl) (by rfl)).trans (by rfl)

/-- **C1**: for every `MonitorResponse`, the Bucketizer produces exactly
one FieldSet per distinct valid RFC3339 timestamp string appearing in any
datum across all metrics (bucket keys are duplicate-free and are exactly
the timestamp strings of the traversal; restricted to RFC3339-valid keys
they are counted exactly once, and the emission loop emits one FieldSet
per such key); metric values sharing a timestamp string are merged into
that one FieldSet (every traversed datum's metric name is a field of the
bucket at its timestamp). -/
theorem bucketizer_one_fieldset_per_timestamp (r : AzureMonitorResponse)
    (resourceId ts : String) :
    ((bucketize r).map Prod.fst).Nodup ∧
    (ts ∈ (bucketize r).map Prod.fst ↔
      ts ∈ (allData r).map fun p => p.2.TimeStamp) ∧
    ((((bucketize r).map Prod.fst).filter fun t => (rfc3339Parse t).isSome).count ts =
      if ts ∈ ((allData r).map fun p => p.2.TimeStamp) ∧ (rfc3339Parse ts).isSome
      then 1 else 0) ∧
    ((emitBuckets resourceId (bucketize r)).length =
      (((bucketize r).map Prod.fst).filter fun t => (rfc3339Parse t).isSome).length) ∧
    (∀ p ∈ allData r, ∃ fs,
      lookupTs (bucketize r) p.2.TimeStamp = some fs ∧ p.1 ∈ fs.map Prod.fst) := by
  have hb := bucketize_eq_insertAll r
  have hnd : ((bucketize r).map Prod.fst).Nodup := by
    rw [hb]
    exact nodup_keys_insertAll _ _ (by simp)
  have hmem : ∀ t, t ∈ (bucketize r).map Prod.fst ↔
      t ∈ (allData r).map fun p => p.2.TimeStamp := by
    intro t
    rw [hb]
    simpa using mem_keys_insertAll (allData r) [] t
  refine ⟨hnd, hmem ts, ?_, ?_, ?_⟩
  · by_cases hc : ts ∈ ((allData r).map fun p => p.2.TimeStamp) ∧
        (rfc3339Parse ts).isSome
    · rw [if_pos hc]
      refine List.count_eq_one_of_mem (hnd.filter _) ?_
      rw [List.mem_filter]
      exact ⟨(hmem ts).mpr hc.1, by simpa using hc.2⟩
    · rw [if_neg hc]
      refine List.count_eq_zero_of_not_mem ?_
      intro hin
      rcases List.mem_filter.mp hin with ⟨h₁, h₂⟩
      exact hc ⟨(hmem ts).mp h₁, by simpa using h₂⟩
  · rw [length_emitBuckets, List.filter_map, List.length_map]
    rfl
  · intro p hp
    rw [hb]
    exact insertAll_mem_name _ _ _ hp

/-- Witness for C1: the merging clause evaluated on `rDup`, where the
metric `cpu` reports the timestamp `tsJan` in two different TimeSeries. -/
theorem bucketizer_one_fieldset_per_timestamp_witness :
    ∃ fs, lookupTs (bucketize rDup) tsJan = some fs ∧ "cpu" ∈ fs.map Prod.fst := by
  have h := (bucketizer_one_fieldset_per_timestamp rDup "RID" tsJan).2.2.2.2
      ("cpu", ⟨2, tsJan⟩) (by decide)
  exact h

/-- **C4**: within each bucket the field keys are duplicate-free (so a
metric name occurs at most once, and exactly once when present), and the
value stored for metric `n` at timestamp `ts` is the `Average` of the
*last* datum with that name and timestamp in traversal order — last
writer wins, whether the duplicates came from different TimeSeries or
anywhere else in the traversal. -/
theorem bucketizer_last_writer_wins (r : AzureMonitorResponse) (ts n : String) :
    (∀ ts' fs, (ts', fs) ∈ bucketize r →
      (fs.map Prod.fst).Nodup ∧
      (n ∈ fs.map Prod.fst → (fs.map Prod.fst).count n = 1)) ∧
    ((lookupTs (bucketize r) ts).bind (fun fs => lookupF fs n) =
      match ((allData r).filter fun p => p.1 = n ∧ p.2.TimeStamp = ts).getLast? with
      | some p => some p.2.Average
      | none => none) := by
  have hb := bucketize_eq_insertAll r
  constructor
  · intro ts' fs hmem
    have hnd : (fs.map Prod.fst).Nodup := by
      refine insertAll_fields_nodup (allData r) [] (by simp) ts' fs ?_
      rw [← hb]
      exact hmem
    exact ⟨hnd, fun hn => List.count_eq_one_of_mem hnd hn⟩
  · rw [hb, insertAll_lookup_last]
    cases ((allData r).filter fun p => p.1 = n ∧ p.2.TimeStamp = ts).getLast? with
    | none => rfl
    | some p => rfl

/-- Witness for C4: on `rDup` the bucket at `tsJan` holds exactly one
`cpu` field, whose value 2 is the average of the datum from the second
TimeSeries (the last one processed). -/
theorem bucketizer_last_writer_wins_witness :
    (lookupTs (bucketize rDup) tsJan).bind (fun fs => lookupF fs "cpu") = some 2 ∧
    ∀ fs, (tsJan, fs) ∈ bucketize rDup → (fs.map Prod.fst).count "cpu" = 1 := by
  constructor
  · exact ((bucketizer_last_writer_wins rDup tsJan "cpu").2).trans (by rfl)
  · intro fs hfs
    have hfs2 : fs = [("cpu", 2)] := by
      rw [show bucketize rDup = [(tsJan, [("cpu", 2)])] from rfl] at hfs
      exact congrArg Prod.snd (List.mem_singleton.mp hfs)
    exact ((bucketizer_last_writer_wins rDup tsJan "cpu").1 tsJan fs hfs).2
      (by rw [hfs2]; decide)

/-- **C9**: the Bucketizer is a deterministic function of the
`MonitorResponse`: any two runs of the emission loop — modelled as any two
iteration orders of the bucket keys, since Go's map iteration order is
unspecified — produce the same multiset of FieldSets, namely the one
produced by the canonical emission. -/
theorem bucketizer_deterministic (resourceId : String) (r : AzureMonitorResponse)
    (o₁ o₂ : List String)
    (h₁ : o₁.Perm ((bucketize r).map Prod.fst))
    (h₂ : o₂.Perm ((bucketize r).map Prod.fst)) :
    (emitAlong resourceId (bucketize r) o₁ : Multiset Emission) =
      (emitAlong resourceId (bucketize r) o₂ : Multiset Emission) ∧
    (emitAlong resourceId (bucketize r) o₁ : Multiset Emission) =
      (emitBuckets resourceId (bucketize r) : List Emission) := by
  have hnd : ((bucketize r).map Prod.fst).Nodup := by
    rw [bucketize_eq_insertAll]
    exact nodup_keys_insertAll _ _ (by simp)
  have key : ∀ o : List String, o.Perm ((bucketize r).map Prod.fst) →
      (emitAlong resourceId (bucketize r) o : Multiset Emission) =
        (emitBuckets resourceId (bucketize r) : List Emission) := by
    intro o ho
    rw [← emitAlong_keys resourceId (bucketize r) hnd]
    exact Multiset.coe_eq_coe.mpr (List.Perm.filterMap _ ho)
  exact ⟨(key o₁ h₁).trans (key o₂ h₂).symm, key o₁ h₁⟩

/-- Witness for C9: both iteration orders of `rTwo`'s two buckets emit the
same multiset of FieldSets. -/
theorem bucketizer_deterministic_witness :
    (emitAlong "RID" (bucketize rTwo) [tsJan, tsFeb] : Multiset Emission) =
      (emitAlong "RID" (bucketize rTwo) [tsFeb, tsJan] : Multiset Emission) := by
  exact (bucketizer_deterministic "RID" rTwo [tsJan, tsFeb] [tsFeb, tsJan]
    (by decide) (by decide)).1

/-- **C3**: when the response parses, `Gather` returns success (`none`):
its emission list is exactly the RFC3339-filtered emission of the buckets,
so every bucket whose timestamp key parses is emitted as a FieldSet, every
emission comes from a bucket whose key parses, and the number of emissions
equals the number of buckets with a parsing key — buckets whose key fails
RFC3339 parsing are silently discarded, one by one. -/
theorem gather_discards_malformed_timestamps (a : AzureMonitor)
    (resp : HttpResponse) (mr : AzureMonitorResponse)
    (h : parseResponse resp = .ok mr) :
    (gather a (.ok resp)).2 = none ∧
    (gather a (.ok resp)).1 = emitBuckets a.ResourceId (bucketize mr) ∧
    (∀ p ∈ bucketize mr, ∀ t, rfc3339Parse p.1 = some t →
      (⟨"azure_monitor", p.2, [("resource_id", a.ResourceId)], t⟩ : Emission) ∈
        (gather a (.ok resp)).1) ∧
    (∀ e ∈ (gather a (.ok resp)).1, ∃ p ∈ bucketize mr,
      rfc3339Parse p.1 = some e.timestamp ∧
      e = ⟨"azure_monitor", p.2, [("resource_id", a.ResourceId)], e.timestamp⟩) ∧
    (gather a (.ok resp)).1.length =
      ((bucketize mr).filter fun p => (rfc3339Parse p.1).isSome).length := by
  have hg : gather a (.ok resp) = (emitBuckets a.ResourceId (bucketize mr), none) := by
    rw [gather_ok_eq, h]
  rw [hg]
  refine ⟨rfl, rfl, ?_, ?_, ?_⟩
  · intro p hp t ht
    exact emitBuckets_mk_mem _ _ _ _ hp ht
  · intro e he
    exact (mem_emitBuckets _ _ _).mp he
  · show (emitBuckets a.ResourceId (bucketize mr)).length = _
    rw [length_emitBuckets]

set_option maxRecDepth 2000000 in
/-- Witness for C3: on `respMixed` (one malformed, one valid timestamp)
the cycle succeeds and emits exactly the one valid-timestamp FieldSet. -/
theorem gather_discards_malformed_timestamps_witness :
    (gather azm (.ok respMixed)).2 = none ∧
    (⟨"azure_monitor", [("cpu", ((2 : Int) : ℚ))], [("resource_id", "RID")], tJan⟩ :
        Emission) ∈ (gather azm (.ok respMixed)).1 ∧
    (gather azm (.ok respMixed)).1.length = 1 := by
  have h := gather_discards_malformed_timestamps azm respMixed mrMixed (by rfl)
  refine ⟨h.1, ?_, ?_⟩
  · exact h.2.2.1 ("2024-01-01T00:00:00Z", [("cpu", ((2 : Int) : ℚ))]) (by decide)
      tJan (by rfl)
  · exact h.2.2.2.2.trans (by rfl)

/-- **C10**: every FieldSet `Gather` emits is non-empty, is tagged exactly
`resource_id = the configured resource` and nothing else, carries the
fixed measurement name, and each of its field values is the `Average` of
some datum of the parsed response whose metric has that field's name and
whose `TimeStamp` is exactly the bucket's timestamp string. -/
theorem gather_emissions_wellformed (a : AzureMonitor) (resp : HttpResponse)
    (mr : AzureMonitorResponse) (h : parseResponse resp = .ok mr) :
    ∀ e ∈ (gather a (.ok resp)).1,
      e.measurement = "azure_monitor" ∧
      e.fields ≠ [] ∧
      e.tags = [("resource_id", a.ResourceId)] ∧
      ∃ ts, (ts, e.fields) ∈ bucketize mr ∧ rfc3339Parse ts = some e.timestamp ∧
        ∀ nq ∈ e.fields, ∃ d, (nq.1, d) ∈ allData mr ∧
          d.TimeStamp = ts ∧ d.Average = nq.2 := by
  have hg : gather a (.ok resp) = (emitBuckets a.ResourceId (bucketize mr), none) := by
    rw [gather_ok_eq, h]
  rw [hg]
  intro e he
  rcases (mem_emitBuckets _ _ _).mp he with ⟨p, hp, ht, he'⟩
  have hQ := insertAll_inv
    (fun ts n q => ∃ d, (n, d) ∈ allData mr ∧ d.TimeStamp = ts ∧ d.Average = q)
    (allData mr) [] (by simp) (fun q hq => ⟨q.2, by simpa using hq, rfl, rfl⟩)
    p.1 p.2 (by rw [← bucketize_eq_insertAll]; simpa using hp)
  refine ⟨by rw [he'], ?_, by rw [he'], p.1, ?_, ht, ?_⟩
  · rw [he']
    exact hQ.1
  · rw [he']
    simpa using hp
  · rw [he']
    exact hQ.2

set_option maxRecDepth 2000000 in
/-- Witness for C10: the single FieldSet gathered from `resp6` is
well-formed: non-empty, correctly tagged, and its `Percentage CPU` value
42.5 is the average of the one datum with that timestamp. -/
theorem gather_emissions_wellformed_witness :
    (⟨"azure_monitor", [("Percentage CPU", mkRat 85 2)], [("resource_id", "RID")],
        tJan⟩ : Emission).fields ≠ [] ∧
    (⟨"azure_monitor", [("Percentage CPU", mkRat 85 2)], [("resource_id", "RID")],
        tJan⟩ : Emission).tags = [("resource_id", azm.ResourceId)] := by
  have h := gather_emissions_wellformed azm resp6 mr6 (by rfl)
    ⟨"azure_monitor", [("Percentage CPU", mkRat 85 2)], [("resource_id", "RID")], tJan⟩
    (by rw [show (gather azm (.ok resp6)).1 =
        [⟨"azure_monitor", [("Percentage CPU", mkRat 85 2)],
          [("resource_id", "RID")], tJan⟩] from rfl]
        exact List.mem_singleton.mpr rfl)
  exact ⟨h.2.1, h.2.2.1⟩

set_option maxRecDepth 2000000 in
/-- **C6**: an HTTP 200 response whose body is exactly
`\x7b"value":[\x7b"name":\x7b"value":"Percentage CPU"\x7d,"timeseries":[\x7b"data":[\x7b"average":42.5,"timeStamp":"2024-01-01T00:00:00Z"\x7d]\x7d]\x7d]\x7d`
parses successfully (all absent leaf fields keep their zero values, with
provider-defined field casing matched case-insensitively), and `Gather`
emits exactly one FieldSet: timestamp `2024-01-01T00:00:00Z`, the single
field `Percentage CPU` = 42.5, tagged `resource_id` = the configured
resource, under the fixed measurement name `azure_monitor` — for any
configured resource id. -/
theorem gather_sample_response (resourceId : String)
    (authorizer : Option Authorizer) :
    parseResponse resp6 = .ok mr6 ∧
    gather ⟨resourceId, authorizer⟩ (.ok resp6) =
      ([⟨"azure_monitor", [("Percentage CPU", (42.5 : ℚ))],
          [("resource_id", resourceId)], ⟨2024, 1, 1, 0, 0, 0, 0, 0⟩⟩], none) := by
  constructor
  · rfl
  · have h425 : (42.5 : ℚ) = mkRat 85 2 := by norm_num
    rw [h425]
    rfl
